import Mathlib

/-!
Verification of the `Checkbox` widget (`checkbox.go`) of the tview
terminal-UI toolkit.

The widget's collaborators (the `Box` base primitive, the `tcell` screen,
and the `Print` text helper) live outside the provided source; they are
modelled by their interfaces only, as the spec prescribes:

* geometry, border and focus state owned by the `Box` base are inlined as
  fields of the `Checkbox` structure, since the widget only reads them;
* the screen is a grid of styled cells plus a cursor-visibility flag, and
  the widget's own drawing is recorded as a list of screen operations
  (`SetContent` writes and `HideCursor`); the delegated `c.Box.Draw(screen)`
  call that paints border/background first is the external collaborator's
  work and is not part of the widget's own operation list;
* the text printer is a parameter: any pure function from the arguments the
  widget passes (`label, x, y, maxWidth, color`) to the number of columns
  consumed and the cell writes it performs;
* the optional `changed`/`done` callbacks are modelled as installed/absent
  flags, and every invocation the widget performs is recorded, in order,
  in a `CallbackEvent` list (the argument passed to the callback is the
  value stored in the event).
-/

/-- Terminal colors (`tcell.Color`); only their identities matter here. -/
abbrev Color := Nat

/-- `tcell.ColorYellow` (default label color). -/
def ColorYellow : Color := 1
/-- `tcell.ColorBlue` (default field background color). -/
def ColorBlue : Color := 2
/-- `tcell.ColorWhite` (default field text color). -/
def ColorWhite : Color := 3

/-- A `tcell.Style`: a foreground and a background color. -/
structure Style where
  fg : Color
  bg : Color
deriving DecidableEq, Repr

/-- `tcell.StyleDefault`. -/
def Style.styleDefault : Style := ⟨0, 0⟩

/-- `Style.Background`: replace the background color. -/
def Style.background (s : Style) (c : Color) : Style := { s with bg := c }

/-- `Style.Foreground`: replace the foreground color. -/
def Style.foreground (s : Style) (c : Color) : Style := { s with fg := c }

/-- The `tcell` keys the input handler distinguishes; every other key code
is `other`. -/
inductive Key where
  | Rune : Key
  | Enter : Key
  | Tab : Key
  | Backtab : Key
  | Escape : Key
  | other : Nat → Key
deriving DecidableEq, Repr

/-- A `tcell.EventKey`: the key, and the rune (meaningful for `Key.Rune`). -/
structure EventKey where
  key : Key
  rune : Char
deriving DecidableEq, Repr

/-- A recorded callback invocation: `changed b` is a call of the `changed`
handler with argument `b`; `done k` is a call of the `done` handler with
argument `k`. -/
inductive CallbackEvent where
  | changed : Bool → CallbackEvent
  | done : Key → CallbackEvent
deriving DecidableEq, Repr

/-- The `Checkbox` widget state.  The first six fields are the geometry,
border, background and focus state owned by the embedded `Box` base (the
widget reads them during `Draw`); `changed` and `done` record whether the
optional callbacks are installed (`nil` checks in the source). -/
structure Checkbox where
  x : Int
  y : Int
  width : Int
  height : Int
  border : Bool
  hasFocus : Bool
  backgroundColor : Color
  checked : Bool
  label : String
  labelColor : Color
  fieldBackgroundColor : Color
  fieldTextColor : Color
  changed : Bool
  done : Bool
deriving DecidableEq, Repr

/-- `SetChecked` sets the state of the checkbox.  The second component
records the callback invocations performed: the body is a plain field
assignment, so none are. -/
def Checkbox.SetChecked (c : Checkbox) (checked : Bool) :
    Checkbox × List CallbackEvent :=
  ({ c with checked := checked }, [])

/-- `SetLabel` sets the text to be displayed before the input area. -/
def Checkbox.SetLabel (c : Checkbox) (label : String) : Checkbox :=
  { c with label := label }

/-- `GetLabel` returns the text to be displayed before the input area. -/
def Checkbox.GetLabel (c : Checkbox) : String := c.label

/-- One screen operation performed during drawing: a `SetContent` cell
write (position, rune, style) or a `HideCursor` call. -/
inductive DrawOp where
  | setContent : Int → Int → Char → Style → DrawOp
  | hideCursor : DrawOp
deriving DecidableEq, Repr

/-- The external text printer (`Print`): from the arguments the widget
passes — label text, position `x,y`, available width, color — it yields
the number of columns consumed and the cell writes it performed.
(Alignment is always `AlignLeft` at this call site and is omitted.) -/
def Printer := String → Int → Int → Int → Color → Int × List DrawOp

/-- The interior drawing rectangle as `Draw` computes it (lines 121–134 of
`checkbox.go`): `x`, `y`, `rightLimit`, `height` after the border
adjustment. -/
structure Rect where
  x : Int
  y : Int
  rightLimit : Int
  height : Int
deriving DecidableEq, Repr

/-- The "Prepare" step of `Draw`: `rightLimit := x + width`, then if
bordered `x++`, `y++`, `rightLimit -= 2`, `height -= 2`. -/
def Checkbox.interiorRect (c : Checkbox) : Rect :=
  let x := c.x
  let y := c.y
  let rightLimit := x + c.width
  let height := c.height
  if c.border then
    ⟨x + 1, y + 1, rightLimit - 2, height - 2⟩
  else
    ⟨x, y, rightLimit, height⟩

/-- `Draw` draws this primitive onto the screen.  Returns the (unchanged)
widget together with the list of screen operations the widget body
performs, in order: the label printer's writes, the single toggle cell,
and — when focused — a `HideCursor`.  (The delegated `c.Box.Draw(screen)`
border/background pass happens before all of these and belongs to the
external `Box` collaborator.)  When the interior is too small the widget
returns without performing any operation. -/
def Checkbox.Draw (printer : Printer) (c : Checkbox) :
    Checkbox × List DrawOp :=
  let r := c.interiorRect
  if r.height < 1 ∨ r.rightLimit ≤ r.x then
    (c, [])
  else
    let pr := printer c.label r.x r.y (r.rightLimit - r.x) c.labelColor
    let x := r.x + pr.1
    let fieldStyle :=
      (Style.styleDefault.background c.fieldBackgroundColor).foreground
        c.fieldTextColor
    let fieldStyle :=
      if c.hasFocus then
        (fieldStyle.background c.fieldTextColor).foreground
          c.fieldBackgroundColor
      else fieldStyle
    let checkedRune := if !c.checked then ' ' else 'X'
    (c, pr.2 ++ [DrawOp.setContent x r.y checkedRune fieldStyle] ++
          (if c.hasFocus then [DrawOp.hideCursor] else []))

/-- `InputHandler` processes one key event: returns the updated widget and
the callback invocations performed, in order.  Mirrors the `switch` of
lines 160–173: space rune or enter flips `checked` and then calls
`changed` with the new value; tab/backtab/escape call `done` with the key;
everything else falls through. -/
def Checkbox.InputHandler (c : Checkbox) (event : EventKey) :
    Checkbox × List CallbackEvent :=
  match event.key with
  | Key.Rune | Key.Enter =>
    if event.key = Key.Rune ∧ event.rune ≠ ' ' then
      (c, [])
    else
      let c2 := { c with checked := !c.checked }
      (c2, if c2.changed then [CallbackEvent.changed c2.checked] else [])
  | Key.Tab | Key.Backtab | Key.Escape =>
    (c, if c.done then [CallbackEvent.done event.key] else [])
  | Key.other _ => (c, [])

/-- Deliver a sequence of key events to the input handler, threading the
widget state and concatenating the recorded callback invocations. -/
def Checkbox.processEvents (c : Checkbox) :
    List EventKey → Checkbox × List CallbackEvent
  | [] => (c, [])
  | ev :: evs =>
    let r := c.InputHandler ev
    let rest := r.1.processEvents evs
    (rest.1, r.2 ++ rest.2)

/-- An event that toggles the checkbox: enter, or the space rune. -/
def isToggleEvent (ev : EventKey) : Bool :=
  decide (ev.key = Key.Enter) ||
    (decide (ev.key = Key.Rune) && decide (ev.rune = ' '))

/-- One cell of the screen: the rune and the style stored there. -/
structure ScreenCell where
  ch : Char
  style : Style
deriving DecidableEq, Repr

/-- The screen sink: a grid of styled cells (total over coordinates) and a
cursor-visibility flag. -/
@[ext]
structure Screen where
  cells : Int × Int → ScreenCell
  cursorHidden : Bool

/-- Apply one draw operation to a screen: `setContent` overwrites one
cell; `hideCursor` hides the cursor. -/
def Screen.applyOp (s : Screen) : DrawOp → Screen
  | DrawOp.setContent x y ch st =>
    { s with cells := fun p => if p = (x, y) then ⟨ch, st⟩ else s.cells p }
  | DrawOp.hideCursor => { s with cursorHidden := true }

/-- Apply a list of draw operations to a screen, in order. -/
def Screen.applyOps (s : Screen) (ops : List DrawOp) : Screen :=
  ops.foldl Screen.applyOp s

/-- The cell an operation writes at position `p`, if any. -/
def cellWrite (p : Int × Int) : DrawOp → Option ScreenCell
  | DrawOp.setContent x y ch st => if p = (x, y) then some ⟨ch, st⟩ else none
  | DrawOp.hideCursor => none

/-- The last cell a list of operations writes at position `p`, if any. -/
def finalCell (p : Int × Int) : List DrawOp → Option ScreenCell
  | [] => none
  | op :: l =>
    match finalCell p l with
    | some cell => some cell
    | none => cellWrite p op

/-- Whether a list of operations contains a `hideCursor`. -/
def hasHide (l : List DrawOp) : Bool :=
  l.any fun op => match op with
    | DrawOp.hideCursor => true
    | _ => false

theorem applyOp_cells (s : Screen) (op : DrawOp) (p : Int × Int) :
    (s.applyOp op).cells p = (cellWrite p op).getD (s.cells p) := by
  cases op with
  | setContent x y ch st =>
    simp only [Screen.applyOp, cellWrite]
    by_cases h : p = (x, y) <;> simp [h]
  | hideCursor => simp [Screen.applyOp, cellWrite]

theorem applyOps_cells (l : List DrawOp) (s : Screen) (p : Int × Int) :
    (s.applyOps l).cells p = (finalCell p l).getD (s.cells p) := by
  induction l generalizing s with
  | nil => simp [Screen.applyOps, finalCell]
  | cons op l ih =>
    have hstep : Screen.applyOps s (op :: l) = (s.applyOp op).applyOps l := rfl
    rw [hstep, ih]
    cases h : finalCell p l with
    | some cell => simp [finalCell, h]
    | none => simp [finalCell, h, applyOp_cells]

theorem applyOp_cursor (s : Screen) (op : DrawOp) :
    (s.applyOp op).cursorHidden =
      (s.cursorHidden || hasHide [op]) := by
  cases op <;> simp [Screen.applyOp, hasHide, List.any]

theorem applyOps_cursor (l : List DrawOp) (s : Screen) :
    (s.applyOps l).cursorHidden = (s.cursorHidden || hasHide l) := by
  induction l generalizing s with
  | nil => simp [Screen.applyOps, hasHide]
  | cons op l ih =>
    have hstep : Screen.applyOps s (op :: l) = (s.applyOp op).applyOps l := rfl
    rw [hstep, ih, applyOp_cursor]
    cases op <;> simp [hasHide, Bool.or_assoc]

/-- Replaying any fixed list of screen operations leaves the screen
unchanged: cell writes overwrite with the same values, and hiding an
already-hidden cursor does nothing. -/
theorem applyOps_idem (l : List DrawOp) (s : Screen) :
    (s.applyOps l).applyOps l = s.applyOps l := by
  ext p
  · rw [applyOps_cells, applyOps_cells]
    cases h : finalCell p l <;> simp
  · rw [applyOps_cursor, applyOps_cursor]
    cases s.cursorHidden <;> cases hasHide l <;> simp

/-- A default-shaped checkbox used to instantiate theorems on concrete
inputs: borderless 10×1 region at the origin, default colors, both
callbacks installed. -/
def cbSample : Checkbox :=
  { x := 0, y := 0, width := 10, height := 1, border := false,
    hasFocus := false, backgroundColor := 0, checked := false,
    label := "Accept", labelColor := ColorYellow,
    fieldBackgroundColor := ColorBlue, fieldTextColor := ColorWhite,
    changed := true, done := true }

/-- A printer that consumes no columns and writes nothing. -/
def zeroPrinter : Printer := fun _ _ _ _ _ => (0, [])

/-- A printer that consumes the whole available width and writes
nothing. -/
def fullPrinter : Printer := fun _ _ _ w _ => (w, [])

/-- C2: a toggle event (enter, or the space rune) flips `checked`, and the
recorded `changed` invocation — performed exactly once when the handler is
installed, never otherwise — carries the already-flipped value
`(c.InputHandler ev).1.checked`, so the flip is committed before the
callback observes it. -/
theorem inputHandler_toggle (c : Checkbox) (ev : EventKey)
    (h : ev.key = Key.Enter ∨ (ev.key = Key.Rune ∧ ev.rune = ' ')) :
    (c.InputHandler ev).1.checked = !c.checked ∧
    (c.InputHandler ev).2 =
      (if c.changed then
        [CallbackEvent.changed ((c.InputHandler ev).1.checked)] else []) := by
  rcases h with h | ⟨h1, h2⟩
  · simp [Checkbox.InputHandler, h]
  · simp [Checkbox.InputHandler, h1, h2]

/-- Witness for C2: pressing space on an unchecked sample checkbox flips
it to checked and fires `changed true`. -/
theorem inputHandler_toggle_witness :
    ((⟨Key.Rune, ' '⟩ : EventKey).key = Key.Enter ∨
      ((⟨Key.Rune, ' '⟩ : EventKey).key = Key.Rune ∧
        (⟨Key.Rune, ' '⟩ : EventKey).rune = ' ')) ∧
    ((cbSample.InputHandler ⟨Key.Rune, ' '⟩).1.checked = !cbSample.checked ∧
      (cbSample.InputHandler ⟨Key.Rune, ' '⟩).2 =
        (if cbSample.changed then
          [CallbackEvent.changed
            ((cbSample.InputHandler ⟨Key.Rune, ' '⟩).1.checked)] else [])) :=
  ⟨by decide, inputHandler_toggle cbSample ⟨Key.Rune, ' '⟩ (by decide)⟩

/-- C4: tab, backtab and escape leave the widget (in particular `checked`)
entirely unchanged, and record exactly one `done` invocation carrying that
very key when the handler is installed, none otherwise. -/
theorem inputHandler_doneKeys (c : Checkbox) (ev : EventKey)
    (h : ev.key = Key.Tab ∨ ev.key = Key.Backtab ∨ ev.key = Key.Escape) :
    (c.InputHandler ev).1 = c ∧
    (c.InputHandler ev).2 =
      (if c.done then [CallbackEvent.done ev.key] else []) := by
  rcases h with h | h | h <;> simp [Checkbox.InputHandler, h]

/-- Witness for C4: pressing tab on the sample checkbox leaves it
unchanged and fires `done Key.Tab`. -/
theorem inputHandler_doneKeys_witness :
    ((⟨Key.Tab, ' '⟩ : EventKey).key = Key.Tab ∨
      (⟨Key.Tab, ' '⟩ : EventKey).key = Key.Backtab ∨
      (⟨Key.Tab, ' '⟩ : EventKey).key = Key.Escape) ∧
    ((cbSample.InputHandler ⟨Key.Tab, ' '⟩).1 = cbSample ∧
      (cbSample.InputHandler ⟨Key.Tab, ' '⟩).2 =
        (if cbSample.done then [CallbackEvent.done (⟨Key.Tab, ' '⟩ :
          EventKey).key] else [])) :=
  ⟨by decide, inputHandler_doneKeys cbSample ⟨Key.Tab, ' '⟩ (by decide)⟩

/-- C9: a printable rune other than space, and any key that is none of
rune/enter/tab/backtab/escape, is a no-op: the widget is returned with
every field unchanged and no callback invocation is recorded. -/
theorem inputHandler_noop (c : Checkbox) (ev : EventKey)
    (h : (ev.key = Key.Rune ∧ ev.rune ≠ ' ') ∨ (∃ n, ev.key = Key.other n)) :
    c.InputHandler ev = (c, []) := by
  rcases h with ⟨h1, h2⟩ | ⟨n, hn⟩
  · simp [Checkbox.InputHandler, h1, h2]
  · simp [Checkbox.InputHandler, hn]

/-- Witness for C9: the rune `'a'` leaves the sample checkbox unchanged
and fires nothing. -/
theorem inputHandler_noop_witness :
    (((⟨Key.Rune, 'a'⟩ : EventKey).key = Key.Rune ∧
      (⟨Key.Rune, 'a'⟩ : EventKey).rune ≠ ' ') ∨
      (∃ n, (⟨Key.Rune, 'a'⟩ : EventKey).key = Key.other n)) ∧
    cbSample.InputHandler ⟨Key.Rune, 'a'⟩ = (cbSample, []) :=
  ⟨Or.inl (by decide), inputHandler_noop cbSample ⟨Key.Rune, 'a'⟩
    (Or.inl ⟨rfl, by decide⟩)⟩

theorem decide_succ_mod_two (n : Nat) :
    decide ((n + 1) % 2 = 1) = !decide (n % 2 = 1) := by
  rcases Nat.mod_two_eq_zero_or_one n with h | h <;> simp [Nat.add_mod, h]

theorem inputHandler_toggleEvent (c : Checkbox) (ev : EventKey)
    (hev : isToggleEvent ev = true) (hch : c.changed = true) :
    c.InputHandler ev =
      ({ c with checked := !c.checked },
        [CallbackEvent.changed (!c.checked)]) := by
  rcases Bool.or_eq_true_iff.mp hev with h | h
  · have h1 : ev.key = Key.Enter := of_decide_eq_true h
    simp [Checkbox.InputHandler, h1, hch]
  · have h1 : ev.key = Key.Rune := of_decide_eq_true (Bool.and_elim_left h)
    have h2 : ev.rune = ' ' := of_decide_eq_true (Bool.and_elim_right h)
    simp [Checkbox.InputHandler, h1, h2, hch]

theorem xor_not_left_shift (a p : Bool) : xor (!a) p = xor a (!p) := by
  cases a <;> cases p <;> rfl

/-- State after a run of toggle events with the `changed` handler
installed: only `checked` moves, by the parity of the run length. -/
theorem processEvents_toggle_fst (evs : List EventKey) (c : Checkbox)
    (h1 : evs.all isToggleEvent = true) (h2 : c.changed = true) :
    (c.processEvents evs).1 =
      { c with checked := xor c.checked (decide (evs.length % 2 = 1)) } := by
  induction evs generalizing c with
  | nil => simp [Checkbox.processEvents]
  | cons ev evs ih =>
    simp only [List.all_cons, Bool.and_eq_true] at h1
    have hid := inputHandler_toggleEvent c ev h1.1 h2
    have hstep : (c.processEvents (ev :: evs)).1 =
        ((c.InputHandler ev).1.processEvents evs).1 := rfl
    rw [hstep, hid]
    have ihc := ih { c with checked := !c.checked } h1.2 h2
    have hx : xor (!c.checked) (decide (evs.length % 2 = 1)) =
        xor c.checked (decide ((ev :: evs).length % 2 = 1)) := by
      have hlen : (ev :: evs).length = evs.length + 1 := rfl
      rw [hlen, decide_succ_mod_two, xor_not_left_shift]
    show (({ c with checked := !c.checked } : Checkbox).processEvents evs).1 = _
    rw [ihc]
    show ({ c with checked := xor (!c.checked) (decide (evs.length % 2 = 1)) } : Checkbox) = _
    rw [hx]

/-- A run of toggle events with the `changed` handler installed records
exactly one callback invocation per event. -/
theorem processEvents_toggle_len (evs : List EventKey) (c : Checkbox)
    (h1 : evs.all isToggleEvent = true) (h2 : c.changed = true) :
    (c.processEvents evs).2.length = evs.length := by
  induction evs generalizing c with
  | nil => simp [Checkbox.processEvents]
  | cons ev evs ih =>
    simp only [List.all_cons, Bool.and_eq_true] at h1
    have hid := inputHandler_toggleEvent c ev h1.1 h2
    have hstep : (c.processEvents (ev :: evs)).2 =
        (c.InputHandler ev).2 ++ ((c.InputHandler ev).1.processEvents evs).2 :=
      rfl
    rw [hstep, hid]
    have ihc := ih { c with checked := !c.checked } h1.2 h2
    show ([CallbackEvent.changed (!c.checked)] ++
      (({ c with checked := !c.checked } : Checkbox).processEvents evs).2).length =
        (ev :: evs).length
    rw [List.length_append, ihc]
    simp [Nat.add_comm]

/-- Every invocation recorded by a run of toggle events is a `changed`
invocation. -/
theorem processEvents_toggle_mem (evs : List EventKey) (c : Checkbox)
    (h1 : evs.all isToggleEvent = true) (h2 : c.changed = true) :
    ∀ e ∈ (c.processEvents evs).2, ∃ b, e = CallbackEvent.changed b := by
  induction evs generalizing c with
  | nil => simp [Checkbox.processEvents]
  | cons ev evs ih =>
    simp only [List.all_cons, Bool.and_eq_true] at h1
    have hid := inputHandler_toggleEvent c ev h1.1 h2
    have hstep : (c.processEvents (ev :: evs)).2 =
        (c.InputHandler ev).2 ++ ((c.InputHandler ev).1.processEvents evs).2 :=
      rfl
    rw [hstep, hid]
    have ihc := ih { c with checked := !c.checked } h1.2 h2
    intro e he
    rcases List.mem_append.mp he with he | he
    · exact ⟨!c.checked, by simpa using he⟩
    · exact ihc e he

/-- C6: for a run of toggle events (space rune / enter) with the `changed`
handler installed, one `changed` invocation is recorded per event (the
count equals the run length and nothing else is recorded), and after each
prefix of `k` events `checked` equals the initial value xor-ed with the
parity of `k`. -/
theorem processEvents_toggle_parity (evs : List EventKey) (c : Checkbox)
    (h1 : evs.all isToggleEvent = true) (h2 : c.changed = true) :
    (c.processEvents evs).2.length = evs.length ∧
    (∀ e ∈ (c.processEvents evs).2, ∃ b, e = CallbackEvent.changed b) ∧
    ∀ k, k ≤ evs.length →
      (c.processEvents (evs.take k)).1.checked =
        xor c.checked (decide (k % 2 = 1)) := by
  refine ⟨processEvents_toggle_len evs c h1 h2,
    processEvents_toggle_mem evs c h1 h2, ?_⟩
  intro k hk
  have hall : (evs.take k).all isToggleEvent = true := by
    rw [List.all_eq_true] at h1 ⊢
    exact fun e he => h1 e (List.take_subset k evs he)
  have hfst := processEvents_toggle_fst (evs.take k) c hall h2
  rw [hfst]
  show xor c.checked (decide ((evs.take k).length % 2 = 1)) =
    xor c.checked (decide (k % 2 = 1))
  rw [List.length_take, Nat.min_eq_left hk]

/-- Witness for C6: two toggle events (space, then enter) on the sample
checkbox record two `changed` invocations and return `checked` to its
initial value. -/
theorem processEvents_toggle_parity_witness :
    ([(⟨Key.Rune, ' '⟩ : EventKey), ⟨Key.Enter, 'x'⟩].all isToggleEvent
      = true) ∧
    cbSample.changed = true ∧
    ((cbSample.processEvents
        [⟨Key.Rune, ' '⟩, ⟨Key.Enter, 'x'⟩]).2.length =
      ([(⟨Key.Rune, ' '⟩ : EventKey), ⟨Key.Enter, 'x'⟩]).length ∧
    (∀ e ∈ (cbSample.processEvents
        [⟨Key.Rune, ' '⟩, ⟨Key.Enter, 'x'⟩]).2,
      ∃ b, e = CallbackEvent.changed b) ∧
    ∀ k, k ≤ ([(⟨Key.Rune, ' '⟩ : EventKey), ⟨Key.Enter, 'x'⟩]).length →
      (cbSample.processEvents
          ([(⟨Key.Rune, ' '⟩ : EventKey), ⟨Key.Enter, 'x'⟩].take k)).1.checked =
        xor cbSample.checked (decide (k % 2 = 1))) :=
  ⟨by decide, rfl,
    processEvents_toggle_parity [⟨Key.Rune, ' '⟩, ⟨Key.Enter, 'x'⟩]
      cbSample (by decide) rfl⟩

/-- The field style of the toggle cell: `fieldBackgroundColor`/
`fieldTextColor` as background/foreground, swapped under focus
(lines 140–143). -/
theorem draw_field_style (c : Checkbox) :
    (if c.hasFocus then
      ((Style.styleDefault.background c.fieldBackgroundColor).foreground
          c.fieldTextColor).background c.fieldTextColor |>.foreground
        c.fieldBackgroundColor
    else
      (Style.styleDefault.background c.fieldBackgroundColor).foreground
        c.fieldTextColor) =
    (if c.hasFocus then ⟨c.fieldBackgroundColor, c.fieldTextColor⟩
      else (⟨c.fieldTextColor, c.fieldBackgroundColor⟩ : Style)) := by
  cases h : c.hasFocus <;>
    simp [Style.styleDefault, Style.background, Style.foreground]

/-- When the interior is large enough, `Draw` performs exactly the
printer's writes, then one toggle cell immediately after the label, then
(under focus) a `HideCursor`. -/
theorem draw_ops (printer : Printer) (c : Checkbox)
    (consumed : Int) (pops : List DrawOp)
    (hsize : ¬(c.interiorRect.height < 1 ∨
      c.interiorRect.rightLimit ≤ c.interiorRect.x))
    (hprint : printer c.label c.interiorRect.x c.interiorRect.y
      (c.interiorRect.rightLimit - c.interiorRect.x) c.labelColor =
        (consumed, pops)) :
    (c.Draw printer).2 =
      pops ++
        [DrawOp.setContent (c.interiorRect.x + consumed) c.interiorRect.y
          (if c.checked then 'X' else ' ')
          (if c.hasFocus then ⟨c.fieldBackgroundColor, c.fieldTextColor⟩
            else ⟨c.fieldTextColor, c.fieldBackgroundColor⟩)] ++
        (if c.hasFocus then [DrawOp.hideCursor] else []) := by
  unfold Checkbox.Draw
  rw [if_neg hsize, hprint]
  cases hch : c.checked <;> cases hf : c.hasFocus <;>
    simp [Style.styleDefault, Style.background, Style.foreground]

/-- `SetChecked` does not touch the geometry, so the interior rectangle is
unchanged. -/
theorem interiorRect_setChecked (c : Checkbox) (v : Bool) :
    ((c.SetChecked v).1).interiorRect = c.interiorRect := rfl

/-- C1 (amended): with a border the interior rectangle insets `x` and `y`
by one and shrinks `height` by two, but `rightLimit` is reduced by two as
well, so the usable interior width `rightLimit - x` of a bordered widget
of width `w` is `w - 3`, not `w - 2`; without a border the rectangle is
used as given (usable width `w`). -/
theorem interiorRect_amended (c : Checkbox) :
    c.interiorRect =
      (if c.border then (⟨c.x + 1, c.y + 1, c.x + c.width - 2, c.height - 2⟩ : Rect)
        else ⟨c.x, c.y, c.x + c.width, c.height⟩) ∧
    c.interiorRect.rightLimit - c.interiorRect.x =
      (if c.border then c.width - 3 else c.width) := by
  constructor
  · unfold Checkbox.interiorRect
    cases h : c.border <;> simp [h]
  · unfold Checkbox.interiorRect
    cases h : c.border
    · simp [h]
    · simp [h]
      omega

/-- Counterexample to C1 as stated: for a bordered widget of width 10 the
usable interior width `rightLimit - x` is 7, not `10 - 2 = 8`. -/
theorem interior_width_counterexample :
    ¬((({ cbSample with border := true, height := 3 } : Checkbox).interiorRect.rightLimit -
        ({ cbSample with border := true, height := 3 } : Checkbox).interiorRect.x) =
      ({ cbSample with border := true, height := 3 } : Checkbox).width - 2) := by
  decide

/-- C3: when the interior height is below one row or the interior width is
zero or negative, `Draw` returns the widget unchanged having performed no
screen operation at all — no `SetContent`, no cursor operation.  (`Draw`
is a total function, so there is no crash on such geometry.) -/
theorem draw_small_interior_noop (printer : Printer) (c : Checkbox)
    (h : c.interiorRect.height < 1 ∨
      c.interiorRect.rightLimit ≤ c.interiorRect.x) :
    c.Draw printer = (c, []) := by
  unfold Checkbox.Draw
  rw [if_pos h]

/-- Witness for C3: a zero-height sample widget draws nothing. -/
theorem draw_small_interior_noop_witness :
    (({ cbSample with height := 0 } : Checkbox).interiorRect.height < 1 ∨
      ({ cbSample with height := 0 } : Checkbox).interiorRect.rightLimit ≤
        ({ cbSample with height := 0 } : Checkbox).interiorRect.x) ∧
    ({ cbSample with height := 0 } : Checkbox).Draw zeroPrinter =
      ({ cbSample with height := 0 }, []) :=
  ⟨by decide, draw_small_interior_noop zeroPrinter
    { cbSample with height := 0 } (by decide)⟩

/-- C5: when the interior is large enough, `Draw` writes exactly one
toggle cell, at the column the label printer advanced the cursor to
(interior `x` plus the consumed width), on the interior's top row: the
rune is `'X'` iff `checked`, the style is
background `fieldBackgroundColor` / foreground `fieldTextColor`, with the
two colors swapped under focus. -/
theorem draw_toggle_cell (printer : Printer) (c : Checkbox)
    (consumed : Int) (pops : List DrawOp)
    (hsize : ¬(c.interiorRect.height < 1 ∨
      c.interiorRect.rightLimit ≤ c.interiorRect.x))
    (hprint : printer c.label c.interiorRect.x c.interiorRect.y
      (c.interiorRect.rightLimit - c.interiorRect.x) c.labelColor =
        (consumed, pops)) :
    (c.Draw printer).2 =
      pops ++
        [DrawOp.setContent (c.interiorRect.x + consumed) c.interiorRect.y
          (if c.checked then 'X' else ' ')
          (if c.hasFocus then ⟨c.fieldBackgroundColor, c.fieldTextColor⟩
            else ⟨c.fieldTextColor, c.fieldBackgroundColor⟩)] ++
        (if c.hasFocus then [DrawOp.hideCursor] else []) :=
  draw_ops printer c consumed pops hsize hprint

/-- Witness for C5: the sample widget with a zero-width printer draws a
single blank toggle cell at the interior origin. -/
theorem draw_toggle_cell_witness :
    (¬(cbSample.interiorRect.height < 1 ∨
      cbSample.interiorRect.rightLimit ≤ cbSample.interiorRect.x)) ∧
    (zeroPrinter cbSample.label cbSample.interiorRect.x
        cbSample.interiorRect.y
        (cbSample.interiorRect.rightLimit - cbSample.interiorRect.x)
        cbSample.labelColor = (0, [])) ∧
    (cbSample.Draw zeroPrinter).2 =
      [] ++
        [DrawOp.setContent (cbSample.interiorRect.x + 0)
          cbSample.interiorRect.y
          (if cbSample.checked then 'X' else ' ')
          (if cbSample.hasFocus then
            ⟨cbSample.fieldBackgroundColor, cbSample.fieldTextColor⟩
            else ⟨cbSample.fieldTextColor, cbSample.fieldBackgroundColor⟩)] ++
        (if cbSample.hasFocus then [DrawOp.hideCursor] else []) :=
  ⟨by decide, by decide,
    draw_toggle_cell zeroPrinter cbSample 0 [] (by decide) (by decide)⟩

/-- C7: `SetChecked v` stores `v` in `checked`, performs no callback
invocation (in particular never `changed`), and a subsequent `Draw` of a
large-enough interior writes the toggle cell with rune `'X'` iff `v`. -/
theorem setChecked_spec (c : Checkbox) (v : Bool) (printer : Printer)
    (consumed : Int) (pops : List DrawOp)
    (hsize : ¬(c.interiorRect.height < 1 ∨
      c.interiorRect.rightLimit ≤ c.interiorRect.x))
    (hprint : printer c.label c.interiorRect.x c.interiorRect.y
      (c.interiorRect.rightLimit - c.interiorRect.x) c.labelColor =
        (consumed, pops)) :
    (c.SetChecked v).1.checked = v ∧
    (c.SetChecked v).2 = [] ∧
    DrawOp.setContent (c.interiorRect.x + consumed) c.interiorRect.y
        (if v then 'X' else ' ')
        (if c.hasFocus then ⟨c.fieldBackgroundColor, c.fieldTextColor⟩
          else ⟨c.fieldTextColor, c.fieldBackgroundColor⟩) ∈
      ((c.SetChecked v).1.Draw printer).2 := by
  refine ⟨rfl, rfl, ?_⟩
  have h := draw_ops printer (c.SetChecked v).1 consumed pops hsize hprint
  rw [h, interiorRect_setChecked]
  simp [Checkbox.SetChecked]

/-- Witness for C7: `SetChecked true` on the sample widget makes the next
draw write an `'X'` toggle cell. -/
theorem setChecked_spec_witness :
    (¬(cbSample.interiorRect.height < 1 ∨
      cbSample.interiorRect.rightLimit ≤ cbSample.interiorRect.x)) ∧
    (zeroPrinter cbSample.label cbSample.interiorRect.x
        cbSample.interiorRect.y
        (cbSample.interiorRect.rightLimit - cbSample.interiorRect.x)
        cbSample.labelColor = (0, [])) ∧
    ((cbSample.SetChecked true).1.checked = true ∧
      (cbSample.SetChecked true).2 = [] ∧
      DrawOp.setContent (cbSample.interiorRect.x + 0)
          cbSample.interiorRect.y (if true then 'X' else ' ')
          (if cbSample.hasFocus then
            ⟨cbSample.fieldBackgroundColor, cbSample.fieldTextColor⟩
            else ⟨cbSample.fieldTextColor, cbSample.fieldBackgroundColor⟩) ∈
        ((cbSample.SetChecked true).1.Draw zeroPrinter).2) :=
  ⟨by decide, by decide,
    setChecked_spec cbSample true zeroPrinter 0 [] (by decide) (by decide)⟩

/-- C8: `Draw` returns the widget with every field unchanged, and its
screen operations are idempotent — replaying the operations of a second
identical draw leaves the screen content exactly as after the first. -/
theorem draw_pure_idem (printer : Printer) (c : Checkbox) (s : Screen) :
    (c.Draw printer).1 = c ∧
    (s.applyOps (c.Draw printer).2).applyOps (c.Draw printer).2 =
      s.applyOps (c.Draw printer).2 := by
  constructor
  · unfold Checkbox.Draw
    by_cases h : (c.interiorRect.height < 1 ∨
      c.interiorRect.rightLimit ≤ c.interiorRect.x)
    · rw [if_pos h]
    · rw [if_neg h]
  · exact applyOps_idem _ _

/-- C10: when the label consumes the entire interior width (the printer
returns `rightLimit - x`), the toggle cell is written at column
`rightLimit` — one column beyond the last interior column
`rightLimit - 1`, hence outside the computed interior rectangle. -/
theorem draw_toggle_past_interior (printer : Printer) (c : Checkbox)
    (pops : List DrawOp)
    (hsize : ¬(c.interiorRect.height < 1 ∨
      c.interiorRect.rightLimit ≤ c.interiorRect.x))
    (hprint : printer c.label c.interiorRect.x c.interiorRect.y
      (c.interiorRect.rightLimit - c.interiorRect.x) c.labelColor =
        (c.interiorRect.rightLimit - c.interiorRect.x, pops)) :
    DrawOp.setContent c.interiorRect.rightLimit c.interiorRect.y
        (if c.checked then 'X' else ' ')
        (if c.hasFocus then ⟨c.fieldBackgroundColor, c.fieldTextColor⟩
          else ⟨c.fieldTextColor, c.fieldBackgroundColor⟩) ∈
      (c.Draw printer).2 := by
  have h := draw_ops printer c
    (c.interiorRect.rightLimit - c.interiorRect.x) pops hsize hprint
  rw [h]
  have hx : c.interiorRect.x +
      (c.interiorRect.rightLimit - c.interiorRect.x) =
      c.interiorRect.rightLimit := by ring
  rw [hx]
  simp

/-- Witness for C10: a printer that consumes the full 10-column interior
of the sample widget makes the toggle cell land at column 10, outside the
interior columns 0–9. -/
theorem draw_toggle_past_interior_witness :
    (¬(cbSample.interiorRect.height < 1 ∨
      cbSample.interiorRect.rightLimit ≤ cbSample.interiorRect.x)) ∧
    (fullPrinter cbSample.label cbSample.interiorRect.x
        cbSample.interiorRect.y
        (cbSample.interiorRect.rightLimit - cbSample.interiorRect.x)
        cbSample.labelColor =
      (cbSample.interiorRect.rightLimit - cbSample.interiorRect.x, [])) ∧
    DrawOp.setContent cbSample.interiorRect.rightLimit
        cbSample.interiorRect.y (if cbSample.checked then 'X' else ' ')
        (if cbSample.hasFocus then
          ⟨cbSample.fieldBackgroundColor, cbSample.fieldTextColor⟩
          else ⟨cbSample.fieldTextColor, cbSample.fieldBackgroundColor⟩) ∈
      (cbSample.Draw fullPrinter).2 :=
  ⟨by decide, by decide,
    draw_toggle_past_interior fullPrinter cbSample [] (by decide)
      (by decide)⟩
